import Mathlib

/-!
Shallow embedding of `src/core/utils/audit_logger.py` (COREFLOW AUDIT LOGGER
v2.1) together with the CPython standard-library behaviours the module relies
on: `json.dumps`, `datetime.utcnow().isoformat()`, `zlib.compress(...).hex()`,
`bytes.fromhex`, `logging.Formatter`, `logging.getLogger` and
`logging.handlers.RotatingFileHandler`.  File contents are modelled as Lean
strings and byte sequences as lists of naturals below 256.
-/

namespace AuditLog

/-- Decimal digit character: 0 is '0', …, 9 is '9'. -/
def digitChar (n : Nat) : Char := Char.ofNat (48 + n)

/-- Fuel-driven decimal rendering of a natural number, most significant digit
first; fuel n + 1 always suffices (see natDigitsAux_fuel). -/
def natDigitsAux : Nat → Nat → List Char
  | 0, _ => []
  | fuel + 1, n =>
    if n < 10 then [digitChar n]
    else natDigitsAux fuel (n / 10) ++ [digitChar (n % 10)]

/-- Decimal digits of a natural number, as produced by Python's str on an int. -/
def natDigits (n : Nat) : List Char := natDigitsAux (n + 1) n

/-- Python's repr of an int, used by json.dumps for integer values. -/
def intRepr (i : Int) : String :=
  if i < 0 then "-" ++ String.mk (natDigits i.natAbs) else String.mk (natDigits i.natAbs)

/-- Zero-padded fixed-width decimal, as produced by %03d-style formatting. -/
def padNum (w n : Nat) : String :=
  String.mk (List.replicate (w - (natDigits n).length) '0' ++ natDigits n)

/-- Lowercase hexadecimal digit, as used by bytes.hex() and by the \uXXXX
escapes of json.dumps. -/
def hexDigitL (n : Nat) : Char :=
  if n < 10 then Char.ofNat (48 + n) else Char.ofNat (87 + n)

/-- The two lowercase hex characters of one byte. -/
def byteHex (b : Nat) : List Char := [hexDigitL (b / 16), hexDigitL (b % 16)]

/-- Models Python bytes.hex(): lowercase hex rendering of a byte sequence. -/
def hexEncode (bs : List Nat) : String := String.mk ((bs.map byteHex).flatten)

/-- Value of one hexadecimal character, if it is one. -/
def hexDigitVal (c : Char) : Option Nat :=
  if 48 ≤ c.toNat ∧ c.toNat ≤ 57 then some (c.toNat - 48)
  else if 97 ≤ c.toNat ∧ c.toNat ≤ 102 then some (c.toNat - 87)
  else if 65 ≤ c.toNat ∧ c.toNat ≤ 70 then some (c.toNat - 55)
  else none

/-- Pairwise hex decoding of a character list (bytes.fromhex without the
whitespace tolerance, which hex output never exercises). -/
def hexDecodeChars : List Char → Option (List Nat)
  | [] => some []
  | [_] => none
  | c1 :: c2 :: rest =>
    match hexDigitVal c1, hexDigitVal c2, hexDecodeChars rest with
    | some h, some l, some bs => some ((16 * h + l) :: bs)
    | _, _, _ => none

/-- Models bytes.fromhex on a whitespace-free string. -/
def hexDecode (s : String) : Option (List Nat) := hexDecodeChars s.data

/-- UTF-8 bytes of one scalar value. -/
def utf8Char (c : Char) : List Nat :=
  let n := c.toNat
  if n < 128 then [n]
  else if n < 2048 then [192 + n / 64, 128 + n % 64]
  else if n < 65536 then [224 + n / 4096, 128 + n / 64 % 64, 128 + n % 64]
  else [240 + n / 262144, 128 + n / 4096 % 64, 128 + n / 64 % 64, 128 + n % 64]

/-- Models Python str.encode(): the UTF-8 byte sequence of a string. -/
def utf8Encode (s : String) : List Nat := (s.data.map utf8Char).flatten

/-- A naive Python datetime as returned by datetime.utcnow(). -/
structure Datetime where
  year : Nat
  month : Nat
  day : Nat
  hour : Nat
  minute : Nat
  second : Nat
  microsecond : Nat

/-- Seconds-precision stamp YYYY-MM-DDTHH:MM:SS, shared by datetime.isoformat()
and by strftime with the source's datefmt %Y-%m-%dT%H:%M:%S (line 62). -/
def dtBase (d : Datetime) : String :=
  padNum 4 d.year ++ "-" ++ padNum 2 d.month ++ "-" ++ padNum 2 d.day ++ "T" ++
    padNum 2 d.hour ++ ":" ++ padNum 2 d.minute ++ ":" ++ padNum 2 d.second

/-- Models datetime.isoformat() with its default timespec auto: no fractional
part when microsecond is zero, six fractional digits otherwise. -/
def Datetime.isoformat (d : Datetime) : String :=
  dtBase d ++ (if d.microsecond = 0 then "" else "." ++ padNum 6 d.microsecond)

mutual

/-- A Python value serializable by json.dumps, as far as this module can put
one in a log entry: strings, ints, booleans, None, lists and dicts. -/
inductive Json where
  | str (s : String)
  | num (i : Int)
  | jbool (b : Bool)
  | null
  | arr (xs : JsonArr)
  | obj (kvs : JsonObj)

/-- A list of JSON values. -/
inductive JsonArr where
  | nil
  | cons (x : Json) (xs : JsonArr)

/-- An insertion-ordered string-keyed dict of JSON values. -/
inductive JsonObj where
  | nil
  | cons (k : String) (v : Json) (kvs : JsonObj)

end

/-- One \uXXXX escape with lowercase hex, for n < 65536. -/
def uEscape (n : Nat) : List Char :=
  ['\\', 'u', hexDigitL (n / 4096 % 16), hexDigitL (n / 256 % 16),
    hexDigitL (n / 16 % 16), hexDigitL (n % 16)]

/-- Models the per-character escaping of json.dumps with its default
ensure_ascii=True: two-character escapes for the quote, the backslash and the
common control characters, the character itself in printable ASCII, and
\uXXXX (a surrogate pair above U+FFFF) for everything else. -/
def escapeChar (c : Char) : List Char :=
  let n := c.toNat
  if n = 34 then ['\\', '"']
  else if n = 92 then ['\\', '\\']
  else if n = 10 then ['\\', 'n']
  else if n = 13 then ['\\', 'r']
  else if n = 9 then ['\\', 't']
  else if n = 8 then ['\\', 'b']
  else if n = 12 then ['\\', 'f']
  else if 32 ≤ n ∧ n ≤ 126 then [c]
  else if n < 65536 then uEscape n
  else uEscape (55296 + (n - 65536) / 1024) ++ uEscape (56320 + (n - 65536) % 1024)

/-- A JSON string literal: quoted, escaped content. -/
def jsonQuote (s : String) : String :=
  "\"" ++ String.mk ((s.data.map escapeChar).flatten) ++ "\""

/-- The run of spaces json.dumps emits as indentation in indent mode. -/
def nspaces (n : Nat) : String := String.mk (List.replicate n ' ')

mutual

/-- Models json.dumps(v, indent=ind) at nesting level lvl, with the default
separators: item separator ", " when ind is none, "," plus a newline and
indentation when ind is some width; key separator ": " in both modes. -/
def dumpsV (ind : Option Nat) (lvl : Nat) : Json → String
  | .str s => jsonQuote s
  | .num i => intRepr i
  | .jbool b => cond b "true" "false"
  | .null => "null"
  | .arr .nil => "[]"
  | .arr (.cons x xs) =>
    match ind with
    | none => "[" ++ dumpsV none 0 x ++ dumpsArr none 0 xs ++ "]"
    | some w =>
      "[\n" ++ nspaces ((lvl + 1) * w) ++ dumpsV (some w) (lvl + 1) x ++
        dumpsArr (some w) (lvl + 1) xs ++ "\n" ++ nspaces (lvl * w) ++ "]"
  | .obj .nil => "\x7b\x7d"
  | .obj (.cons k v kvs) =>
    match ind with
    | none =>
      "\x7b" ++ jsonQuote k ++ ": " ++ dumpsV none 0 v ++ dumpsObj none 0 kvs ++ "\x7d"
    | some w =>
      "\x7b\n" ++ nspaces ((lvl + 1) * w) ++ jsonQuote k ++ ": " ++
        dumpsV (some w) (lvl + 1) v ++ dumpsObj (some w) (lvl + 1) kvs ++ "\n" ++
        nspaces (lvl * w) ++ "\x7d"

/-- The rendering of the remaining elements of a JSON list, each preceded by
the item separator. -/
def dumpsArr (ind : Option Nat) (lvl : Nat) : JsonArr → String
  | .nil => ""
  | .cons x xs =>
    (match ind with
     | none => ", "
     | some w => ",\n" ++ nspaces (lvl * w)) ++
      dumpsV ind lvl x ++ dumpsArr ind lvl xs

/-- The rendering of the remaining members of a JSON dict, each preceded by
the item separator. -/
def dumpsObj (ind : Option Nat) (lvl : Nat) : JsonObj → String
  | .nil => ""
  | .cons k v kvs =>
    (match ind with
     | none => ", "
     | some w => ",\n" ++ nspaces (lvl * w)) ++
      jsonQuote k ++ ": " ++ dumpsV ind lvl v ++ dumpsObj ind lvl kvs

end

/-- Discriminator: is this JSON value a string? -/
def Json.isStr : Json → Bool
  | .str _ => true
  | _ => false

/-- The key list of a JSON dict, in insertion order. -/
def JsonObj.keys : JsonObj → List String
  | .nil => []
  | .cons k _ kvs => k :: keys kvs

/-- The message argument of AuditLogger.log: Union[str, Dict]. -/
inductive PyMessage where
  | str (s : String)
  | dict (d : JsonObj)

/-- The five-field log_entry dict built by AuditLogger.log (audit_logger.py
lines 84-90). -/
structure LogEntry where
  timestamp : String
  system : String
  message : Json
  metadata : JsonObj
  compressed : Bool

/-- Models the construction of log_entry in AuditLogger.log (lines 84-90).
The external library function zlib.compress is taken as the parameter comp;
the source computes zlib.compress(message.encode()).hex() if compress and
isinstance(message, str) else message, and defaults metadata with
metadata or the empty dict. -/
def buildEntry (comp : List Nat → List Nat) (now : Datetime) (system : String)
    (message : PyMessage) (metadata : Option JsonObj) (compress : Bool) : LogEntry where
  timestamp := now.isoformat ++ "Z"
  system := system
  message :=
    match message, compress with
    | .str s, true => .str (hexEncode (comp (utf8Encode s)))
    | .str s, false => .str s
    | .dict d, _ => .obj d
  metadata := match metadata with | some m => m | none => .nil
  compressed := compress

/-- The JSON value of a LogEntry; the key order is the dict insertion order
timestamp, system, message, metadata, compressed, which json.dumps preserves. -/
def LogEntry.toJson (e : LogEntry) : Json :=
  .obj (.cons "timestamp" (.str e.timestamp)
    (.cons "system" (.str e.system)
      (.cons "message" e.message
        (.cons "metadata" (.obj e.metadata)
          (.cons "compressed" (.jbool e.compressed) .nil)))))

/-- Python truthiness of an os.getenv result: unset (None) and the empty
string are falsy, every other value is truthy (relevant at lines 93 and 97). -/
def envTruthy (env : String → Option String) (key : String) : Bool :=
  match env key with
  | some s => !(s == "")
  | none => false

/-- Models line 93: json.dumps(log_entry, indent=2 if os.getenv('CF_DEBUG')
else None). -/
def logLine (env : String → Option String) (e : LogEntry) : String :=
  dumpsV (if envTruthy env "CF_DEBUG" then some 2 else none) 0 e.toJson

/-- Models logging.Formatter('%(asctime)s.%(msecs)03dZ | %(name)s | %(message)s',
datefmt='%Y-%m-%dT%H:%M:%S') (lines 60-63) applied to a record whose message
is msg and whose creation time is rt. -/
def fileFormat (rt : Datetime) (name msg : String) : String :=
  dtBase rt ++ "." ++ padNum 3 (rt.microsecond / 1000) ++ "Z | " ++ name ++ " | " ++ msg

/-- The rotating file set: the active file's content plus the contents of the
numbered backup files <name>.1, <name>.2, …, where none means that backup does
not exist.  Sizes are measured in characters, matching the len(msg) side of
RotatingFileHandler.shouldRollover. -/
structure FileState where
  active : String
  backups : Nat → Option String

/-- Models RotatingFileHandler.doRollover (CPython logging/handlers.py): for i
from backupCount - 1 down to 1, rename <name>.i to <name>.(i+1), deleting any
previous holder of that name; then rename the active file to <name>.1 and
reopen a fresh empty active file.  When backupCount = 0 nothing is renamed and
the reopened append-mode file keeps its content. -/
def doRollover (backupCount : Nat) (st : FileState) : FileState :=
  if 0 < backupCount then
    { active := ""
      backups := fun j =>
        if j = 1 then some st.active
        else if 2 ≤ j ∧ j ≤ backupCount then
          match st.backups (j - 1) with
          | some c => some c
          | none => st.backups j
        else st.backups j }
  else st

/-- Models RotatingFileHandler.emit: shouldRollover (roll over when
maxBytes > 0 and the current size plus the formatted line, newline included,
reaches maxBytes), then the append performed by FileHandler.emit. -/
def rfhEmit (maxBytes backupCount : Nat) (line : String) (st : FileState) : FileState :=
  let st' :=
    if 0 < maxBytes ∧ maxBytes ≤ st.active.length + (line.length + 1)
    then doRollover backupCount st
    else st
  { st' with active := st'.active ++ (line ++ "\n") }

/-- The configuration and world state surrounding one AuditLogger.log call:
the logger fields set in __init__, the environment, the two clock readings
(now for datetime.utcnow() at line 85, rt for the log record's creation time
used by the file formatter), and whether the optional systemd journal handler
was attached, which requires enable_journal and a successful import of
systemd.journal (lines 20-23 and 67-70).  fileEmitFails and journalEmitFails model an
OSError raised inside the corresponding handler's emit. -/
structure LogCtx where
  comp : List Nat → List Nat
  env : String → Option String
  now : Datetime
  rt : Datetime
  system : String
  maxBytes : Nat
  backupCount : Nat
  journalAttached : Bool
  fileEmitFails : Bool
  journalEmitFails : Bool

/-- What one log call delivered: the resulting file set and the line handed to
the journal sink, if any. -/
structure LogResult where
  file : FileState
  journal : Option String

/-- Models AuditLogger.log (lines 84-94): build log_entry, serialize it, and
hand the line to Logger.info, which passes the record to each attached
handler.  A CPython Handler.emit catches every exception and routes it to
Handler.handleError, which reports to sys.stderr and returns without raising
(logging/__init__.py), so the call itself always returns normally: the result
is Except.ok, and a failing emit leaves this model's file set unchanged.  The
journal handler's formatter %(message)s renders exactly the record's message,
namely the serialized JSON line. -/
def AuditLogger.log (ctx : LogCtx) (message : PyMessage) (metadata : Option JsonObj)
    (compress : Bool) (st : FileState) : Except String LogResult :=
  let entry := buildEntry ctx.comp ctx.now ctx.system message metadata compress
  let line := logLine ctx.env entry
  let fileLine := fileFormat ctx.rt ("CF_AUDIT_" ++ ctx.system) line
  Except.ok
    { file := if ctx.fileEmitFails then st else rfhEmit ctx.maxBytes ctx.backupCount fileLine st
      journal := if ctx.journalAttached && !ctx.journalEmitFails then some line else none }

/-- Default max_log_size from __init__ (line 29): 10 MiB. -/
def defaultMaxLogSize : Nat := 10 * 1024 * 1024

/-- Default backup_count from __init__ (line 30). -/
def defaultBackupCount : Nat := 5

/-- Models Python str.upper on the ASCII identifiers this module uses
(line 42: self.system = system.upper()). -/
def strUpper (s : String) : String := String.mk (s.data.map Char.toUpper)

/-- Models the process-wide logging.getLogger registry, reduced to the number
of RotatingFileHandlers attached to each named logger.  AuditLogger.__init__
(lines 50-64) always constructs a fresh handler and calls addHandler on
logging.getLogger("CF_AUDIT_" + system.upper()), whether or not that named
logger already has one. -/
def initHandlers (reg : String → Nat) (system : String) : String → Nat :=
  fun name =>
    if name = "CF_AUDIT_" ++ strUpper system then reg name + 1 else reg name

/-- Constructing one AuditLogger per element of systems, in order; the first
element may be the module-level default_logger (line 106), whose system is
"coreflow". -/
def initMany (reg : String → Nat) : List String → (String → Nat)
  | [] => reg
  | s :: rest => initMany (initHandlers reg s) rest

/-- One Logger.info call hands the record to every attached handler in turn;
n file handlers opened in append mode on one path perform n sequential
rfhEmit appends. -/
def emitTimes (n maxBytes backupCount : Nat) (line : String) (st : FileState) : FileState :=
  match n with
  | 0 => st
  | n + 1 => emitTimes n maxBytes backupCount line (rfhEmit maxBytes backupCount line st)

/-- Number of digits that follow the first '.' of a string; phrases the
fractional-second precision of a rendered timestamp. -/
def fracDigitCount (s : String) : Nat :=
  (((s.data.dropWhile (fun c => c ≠ '.')).drop 1).takeWhile Char.isDigit).length

/-- The active file contents delivered by a log call. -/
def activeOf (r : Except String LogResult) : String :=
  match r with
  | .ok x => x.file.active
  | .error _ => ""

/-- The journal delivery of a log call. -/
def journalOf (r : Except String LogResult) : Option String :=
  match r with
  | .ok x => x.journal
  | .error _ => none

/-- The concatenation of n copies of line plus a newline: the text n appends
of one formatted line add to a file. -/
def repLine (n : Nat) (line : String) : String :=
  match n with
  | 0 => ""
  | n + 1 => (line ++ "\n") ++ repLine n line

/-- Did the call return normally (no exception reached the caller)? -/
def returnsOk (r : Except String LogResult) : Bool :=
  match r with
  | .ok _ => true
  | .error _ => false

/-- The serialized key order of a log entry. -/
def entryKeys (e : LogEntry) : List String :=
  match e.toJson with
  | .obj kvs => kvs.keys
  | _ => []

/-- A fixed instant with a whole-millisecond fraction:
2026-01-02T03:04:05.123000. -/
def dtC : Datetime := ⟨2026, 1, 2, 3, 4, 5, 123000⟩

/-- The empty file set. -/
def fs0 : FileState := ⟨"", fun _ => none⟩

/-- Context fixture: default configuration, CF_DEBUG unset, journal absent,
no I/O failure, the identity in place of zlib.compress. -/
def ctxPlain : LogCtx where
  comp := id
  env := fun _ => none
  now := ⟨2026, 1, 2, 3, 4, 5, 0⟩
  rt := dtC
  system := "COREFLOW"
  maxBytes := defaultMaxLogSize
  backupCount := defaultBackupCount
  journalAttached := false
  fileEmitFails := false
  journalEmitFails := false

/-- File-set fixture: a full active file (10 characters) and two existing
backups. -/
def stW : FileState :=
  ⟨"0123456789", fun j => if j = 1 then some "one" else if j = 2 then some "two" else none⟩

/-- Environment fixture in which CF_DEBUG is set but equal to the empty
string. -/
def envSetEmpty : String → Option String :=
  fun k => if k = "CF_DEBUG" then some "" else none

/-- Context fixture: a file-handler emit that raises an OSError. -/
def ctxFail : LogCtx := { ctxPlain with fileEmitFails := true }

/-- Context fixture: the systemd journal handler is attached and healthy. -/
def ctxJ : LogCtx := { ctxPlain with journalAttached := true }

/-- Context fixture: the journal handler is attached but its emit raises. -/
def ctxJfail : LogCtx := { ctxPlain with journalAttached := true, journalEmitFails := true }

/-! Supporting lemmas about characters, digits and string appends. -/

theorem mem_str_append {c : Char} {a b : String} :
    c ∈ (a ++ b).data ↔ c ∈ a.data ∨ c ∈ b.data := by
  rw [String.data_append]
  exact List.mem_append

theorem not_nl_append {a b : String} (ha : '\n' ∉ a.data) (hb : '\n' ∉ b.data) :
    '\n' ∉ (a ++ b).data := by
  intro h
  rcases mem_str_append.mp h with h | h
  · exact ha h
  · exact hb h

theorem mem_append_l {c : Char} {a b : String} (h : c ∈ a.data) : c ∈ (a ++ b).data :=
  mem_str_append.mpr (Or.inl h)

theorem digitChar_not_nl : ∀ k, k < 10 → digitChar k ≠ '\n' := by decide

theorem digitChar_not_dot : ∀ k, k < 10 → digitChar k ≠ '.' := by decide

theorem digitChar_isDigit : ∀ k, k < 10 → (digitChar k).isDigit = true := by decide

theorem natDigitsAux_mem :
    ∀ f n c, c ∈ natDigitsAux f n → ∃ k, k < 10 ∧ c = digitChar k := by
  intro f
  induction f with
  | zero => intro n c hc; simp [natDigitsAux] at hc
  | succ f ih =>
    intro n c hc
    by_cases h : n < 10
    · simp [natDigitsAux, h] at hc
      exact ⟨n, h, hc⟩
    · simp [natDigitsAux, h] at hc
      rcases hc with hc | hc
      · exact ih _ _ hc
      · exact ⟨n % 10, Nat.mod_lt _ (by omega), hc⟩

theorem natDigits_mem {n : Nat} {c : Char} (hc : c ∈ natDigits n) :
    ∃ k, k < 10 ∧ c = digitChar k :=
  natDigitsAux_mem _ _ _ hc

theorem natDigitsAux_length :
    ∀ f n k, n < 10 ^ k → 0 < k → (natDigitsAux f n).length ≤ k := by
  intro f
  induction f with
  | zero => intro n k _ _; simp [natDigitsAux]
  | succ f ih =>
    intro n k hn hk
    by_cases h : n < 10
    · simp [natDigitsAux, h]
      omega
    · have h2 : 2 ≤ k := by
        by_contra hcon
        have hk1 : k = 1 := by omega
        subst hk1
        simp at hn
        omega
      have hpow : 10 ^ (k - 1) * 10 = 10 ^ k := by
        rw [← pow_succ]
        congr 1
        omega
      have hdiv : n / 10 < 10 ^ (k - 1) := by
        rw [Nat.div_lt_iff_lt_mul (by norm_num)]
        omega
      have := ih (n / 10) (k - 1) hdiv (by omega)
      simp [natDigitsAux, h]
      omega

theorem natDigits_length {n k : Nat} (hn : n < 10 ^ k) (hk : 0 < k) :
    (natDigits n).length ≤ k :=
  natDigitsAux_length _ _ _ hn hk

theorem padNum_length {w n : Nat} (hn : n < 10 ^ w) (hw : 0 < w) :
    (padNum w n).length = w := by
  have h := natDigits_length hn hw
  simp [padNum, String.length]
  omega

theorem padNum_mem {w n : Nat} {c : Char} (hc : c ∈ (padNum w n).data) :
    ∃ k, k < 10 ∧ c = digitChar k := by
  simp [padNum] at hc
  rcases hc with ⟨-, hc⟩ | hc
  · exact ⟨0, by omega, hc⟩
  · exact natDigits_mem hc

theorem padNum_not_nl {w n : Nat} {c : Char} (hc : c ∈ (padNum w n).data) : c ≠ '\n' := by
  rcases padNum_mem hc with ⟨k, hk, rfl⟩
  exact digitChar_not_nl k hk

theorem padNum_not_dot {w n : Nat} {c : Char} (hc : c ∈ (padNum w n).data) : c ≠ '.' := by
  rcases padNum_mem hc with ⟨k, hk, rfl⟩
  exact digitChar_not_dot k hk

theorem padNum_isDigit {w n : Nat} {c : Char} (hc : c ∈ (padNum w n).data) :
    c.isDigit = true := by
  rcases padNum_mem hc with ⟨k, hk, rfl⟩
  exact digitChar_isDigit k hk

theorem dtBase_mem {d : Datetime} {c : Char} (hc : c ∈ (dtBase d).data) :
    (∃ k, k < 10 ∧ c = digitChar k) ∨ c = '-' ∨ c = 'T' ∨ c = ':' := by
  simp only [dtBase, mem_str_append] at hc
  rcases hc with ((((((((((hc | hc) | hc) | hc) | hc) | hc) | hc) | hc) | hc) | hc) | hc)
  all_goals first
    | exact Or.inl (padNum_mem hc)
    | (simp at hc; subst hc; simp)

theorem dtBase_not_nl {d : Datetime} : '\n' ∉ (dtBase d).data := by
  intro hc
  rcases dtBase_mem hc with ⟨k, hk, he⟩ | he | he | he
  · exact digitChar_not_nl k hk he.symm
  all_goals exact absurd he (by decide)

theorem dtBase_not_dot {d : Datetime} : '.' ∉ (dtBase d).data := by
  intro hc
  rcases dtBase_mem hc with ⟨k, hk, he⟩ | he | he | he
  · exact digitChar_not_dot k hk he.symm
  all_goals exact absurd he (by decide)

/-! Supporting lemmas about hex encoding and UTF-8. -/

theorem hexDigitVal_hexDigitL : ∀ k, k < 16 → hexDigitVal (hexDigitL k) = some k := by decide

theorem hexDecodeChars_encode :
    ∀ bs : List Nat, (∀ b ∈ bs, b < 256) →
      hexDecodeChars ((bs.map byteHex).flatten) = some bs := by
  intro bs
  induction bs with
  | nil => intro _; rfl
  | cons b bs ih =>
    intro h
    have hb : b < 256 := h b (by simp)
    have h1 : hexDigitVal (hexDigitL (b / 16)) = some (b / 16) :=
      hexDigitVal_hexDigitL _ (by omega)
    have h2 : hexDigitVal (hexDigitL (b % 16)) = some (b % 16) :=
      hexDigitVal_hexDigitL _ (by omega)
    have h3 := ih (fun x hx => h x (by simp [hx]))
    simp [byteHex, hexDecodeChars, h1, h2, h3]
    omega

theorem hexDecode_hexEncode {bs : List Nat} (h : ∀ b ∈ bs, b < 256) :
    hexDecode (hexEncode bs) = some bs :=
  hexDecodeChars_encode bs h

theorem char_toNat_lt (c : Char) : c.toNat < 1114112 := by
  rcases c.valid with h | ⟨h1, h2⟩
  · exact lt_trans h (by decide)
  · exact h2

theorem utf8Char_lt {c : Char} : ∀ b ∈ utf8Char c, b < 256 := by
  have hv := char_toNat_lt c
  intro b hb
  by_cases h1 : c.toNat < 128
  · simp [utf8Char, h1] at hb
    omega
  · by_cases h2 : c.toNat < 2048
    · simp [utf8Char, h1, h2] at hb
      rcases hb with rfl | rfl <;> omega
    · by_cases h3 : c.toNat < 65536
      · simp [utf8Char, h1, h2, h3] at hb
        rcases hb with rfl | rfl | rfl <;> omega
      · simp [utf8Char, h1, h2, h3] at hb
        rcases hb with rfl | rfl | rfl | rfl <;> omega

theorem utf8Encode_lt {s : String} : ∀ b ∈ utf8Encode s, b < 256 := by
  intro b hb
  simp [utf8Encode] at hb
  rcases hb with ⟨c, _, hc⟩
  exact utf8Char_lt _ hc

/-! Supporting lemmas: the compact serializer emits no newline character. -/

theorem hexDigitL_not_nl : ∀ k, k < 16 → hexDigitL k ≠ '\n' := by decide

theorem uEscape_not_nl {n : Nat} : '\n' ∉ uEscape n := by
  intro h
  have h16 : ∀ m : Nat, ('\n' : Char) ≠ hexDigitL (m % 16) := fun m he =>
    hexDigitL_not_nl (m % 16) (by omega) he.symm
  replace h : '\n' ∈ ['\\', 'u', hexDigitL (n / 4096 % 16), hexDigitL (n / 256 % 16),
      hexDigitL (n / 16 % 16), hexDigitL (n % 16)] := h
  rcases List.mem_cons.mp h with h | h
  · exact absurd h (by decide)
  rcases List.mem_cons.mp h with h | h
  · exact absurd h (by decide)
  rcases List.mem_cons.mp h with h | h
  · exact h16 _ h
  rcases List.mem_cons.mp h with h | h
  · exact h16 _ h
  rcases List.mem_cons.mp h with h | h
  · exact h16 _ h
  rcases List.mem_cons.mp h with h | h
  · exact h16 _ h
  exact absurd h (by decide)

theorem escapeChar_not_nl {c : Char} : '\n' ∉ escapeChar c := by
  intro h
  simp only [escapeChar] at h
  split at h
  · exact absurd h (by decide)
  · split at h
    · exact absurd h (by decide)
    · split at h
      · exact absurd h (by decide)
      · split at h
        · exact absurd h (by decide)
        · split at h
          · exact absurd h (by decide)
          · split at h
            · exact absurd h (by decide)
            · split at h
              · exact absurd h (by decide)
              · split at h
                · next hcond =>
                    rw [List.mem_singleton] at h
                    subst h
                    exact absurd hcond (by decide)
                · split at h
                  · exact uEscape_not_nl h
                  · rcases List.mem_append.mp h with h | h <;> exact uEscape_not_nl h

theorem jsonQuote_not_nl {s : String} : '\n' ∉ (jsonQuote s).data := by
  intro h
  simp only [jsonQuote, mem_str_append] at h
  rcases h with (h | h) | h
  · exact absurd h (by decide)
  · simp at h
    rcases h with ⟨c, -, hc⟩
    exact escapeChar_not_nl hc
  · exact absurd h (by decide)

theorem intRepr_not_nl {i : Int} : '\n' ∉ (intRepr i).data := by
  intro h
  by_cases hneg : i < 0
  · simp only [intRepr, if_pos hneg, mem_str_append] at h
    rcases h with h | h
    · exact absurd h (by decide)
    · rcases natDigits_mem h with ⟨k, hk, he⟩
      exact digitChar_not_nl k hk he.symm
  · simp only [intRepr, if_neg hneg] at h
    rcases natDigits_mem h with ⟨k, hk, he⟩
    exact digitChar_not_nl k hk he.symm

theorem sep_not_nl : '\n' ∉ (", " : String).data := by decide

theorem colon_not_nl : '\n' ∉ (": " : String).data := by decide

theorem lbrack_not_nl : '\n' ∉ ("[" : String).data := by decide

theorem rbrack_not_nl : '\n' ∉ ("]" : String).data := by decide

theorem lbrace_not_nl : '\n' ∉ ("\x7b" : String).data := by decide

theorem rbrace_not_nl : '\n' ∉ ("\x7d" : String).data := by decide

mutual

theorem dumpsV_not_nl : (lvl : Nat) → (j : Json) → '\n' ∉ (dumpsV none lvl j).data
  | _, .str _ => jsonQuote_not_nl
  | _, .num _ => intRepr_not_nl
  | _, .jbool true => by
    show '\n' ∉ ("true" : String).data
    decide
  | _, .jbool false => by
    show '\n' ∉ ("false" : String).data
    decide
  | _, .null => by
    show '\n' ∉ ("null" : String).data
    decide
  | _, .arr .nil => by
    show '\n' ∉ ("[]" : String).data
    decide
  | _, .arr (.cons x xs) =>
    not_nl_append
      (not_nl_append (not_nl_append lbrack_not_nl (dumpsV_not_nl 0 x)) (dumpsArr_not_nl 0 xs))
      rbrack_not_nl
  | _, .obj .nil => by
    show '\n' ∉ ("\x7b\x7d" : String).data
    decide
  | _, .obj (.cons k v kvs) =>
    not_nl_append
      (not_nl_append
        (not_nl_append (not_nl_append (not_nl_append lbrace_not_nl jsonQuote_not_nl) colon_not_nl)
          (dumpsV_not_nl 0 v))
        (dumpsObj_not_nl 0 kvs))
      rbrace_not_nl

theorem dumpsArr_not_nl : (lvl : Nat) → (xs : JsonArr) → '\n' ∉ (dumpsArr none lvl xs).data
  | _, .nil => by
    show '\n' ∉ ("" : String).data
    decide
  | lvl, .cons x xs =>
    not_nl_append (not_nl_append sep_not_nl (dumpsV_not_nl lvl x)) (dumpsArr_not_nl lvl xs)

theorem dumpsObj_not_nl : (lvl : Nat) → (kvs : JsonObj) → '\n' ∉ (dumpsObj none lvl kvs).data
  | _, .nil => by
    show '\n' ∉ ("" : String).data
    decide
  | lvl, .cons k v kvs =>
    not_nl_append
      (not_nl_append (not_nl_append (not_nl_append sep_not_nl jsonQuote_not_nl) colon_not_nl)
        (dumpsV_not_nl lvl v))
      (dumpsObj_not_nl lvl kvs)

end

theorem dumpsV_indent_nl {w lvl : Nat} {k : String} {v : Json} {kvs : JsonObj} :
    '\n' ∈ (dumpsV (some w) lvl (.obj (.cons k v kvs))).data :=
  mem_append_l (mem_append_l (mem_append_l (mem_append_l (mem_append_l (mem_append_l
    (mem_append_l (mem_append_l (by decide))))))))

/-! Supporting lemmas about the fractional-digit count of a timestamp. -/

theorem dropWhile_append_all {p : Char → Bool} {l1 l2 : List Char}
    (h : ∀ a ∈ l1, p a = true) : (l1 ++ l2).dropWhile p = l2.dropWhile p := by
  induction l1 with
  | nil => rfl
  | cons x xs ih =>
    simp only [List.cons_append, List.dropWhile]
    rw [h x (by simp)]
    exact ih fun a ha => h a (by simp [ha])

theorem takeWhile_append_all {p : Char → Bool} {l1 l2 : List Char}
    (h : ∀ a ∈ l1, p a = true) : (l1 ++ l2).takeWhile p = l1 ++ l2.takeWhile p := by
  induction l1 with
  | nil => rfl
  | cons x xs ih =>
    simp only [List.cons_append, List.takeWhile]
    rw [h x (by simp)]
    simp [ih fun a ha => h a (by simp [ha])]

theorem fracDigitCount_no_dot {s : String} (h : '.' ∉ s.data) : fracDigitCount s = 0 := by
  have hd : s.data.dropWhile (fun c => c ≠ '.') = [] := by
    rw [List.dropWhile_eq_nil_iff]
    intro x hx
    simp
    intro he
    exact h (he ▸ hx)
  unfold fracDigitCount
  rw [hd]
  rfl

theorem fracDigitCount_iso {d : Datetime} (hm : d.microsecond < 1000000) :
    fracDigitCount (d.isoformat ++ "Z") = if d.microsecond = 0 then 0 else 6 := by
  by_cases h0 : d.microsecond = 0
  · rw [if_pos h0]
    apply fracDigitCount_no_dot
    intro hc
    rw [Datetime.isoformat, if_pos h0] at hc
    rcases mem_str_append.mp hc with hc | hc
    · rcases mem_str_append.mp hc with hc | hc
      · exact dtBase_not_dot hc
      · exact absurd hc (by decide)
    · exact absurd hc (by decide)
  · rw [if_neg h0]
    have hdata : (d.isoformat ++ "Z").data
        = (dtBase d).data ++ ('.' :: ((padNum 6 d.microsecond).data ++ ['Z'])) := by
      rw [Datetime.isoformat, if_neg h0]
      rw [String.data_append, String.data_append, String.data_append]
      simp
    have hbase : ∀ a ∈ (dtBase d).data, (fun c => decide (c ≠ '.')) a = true := by
      intro a ha
      simp
      intro he
      exact dtBase_not_dot (he ▸ ha)
    have hdrop : (d.isoformat ++ "Z").data.dropWhile (fun c => c ≠ '.')
        = '.' :: ((padNum 6 d.microsecond).data ++ ['Z']) := by
      rw [hdata, dropWhile_append_all hbase]
      simp [List.dropWhile]
    have hpad : ∀ a ∈ (padNum 6 d.microsecond).data, Char.isDigit a = true :=
      fun a ha => padNum_isDigit ha
    have hlen : (padNum 6 d.microsecond).length = 6 :=
      padNum_length (by norm_num; omega) (by norm_num)
    have hz : List.takeWhile Char.isDigit ['Z'] = ([] : List Char) := by decide
    unfold fracDigitCount
    rw [hdrop, List.drop_succ_cons, List.drop_zero, takeWhile_append_all hpad, hz,
      List.append_nil]
    exact hlen

/-! Supporting lemmas about emission and the handler registry. -/

theorem rfhEmit_no_rollover (backupCount : Nat) {maxBytes : Nat} {line : String}
    {st : FileState} (h : st.active.length + (line.length + 1) < maxBytes) :
    rfhEmit maxBytes backupCount line st
      = { st with active := st.active ++ (line ++ "\n") } := by
  have hc : ¬(0 < maxBytes ∧ maxBytes ≤ st.active.length + (line.length + 1)) := by omega
  simp only [rfhEmit]
  rw [if_neg hc]

theorem initMany_count :
    ∀ (systems : List String) (reg : String → Nat) (tag : String),
      (∀ s ∈ systems, strUpper s = tag) →
      initMany reg systems ("CF_AUDIT_" ++ tag)
        = reg ("CF_AUDIT_" ++ tag) + systems.length := by
  intro systems
  induction systems with
  | nil => intro reg tag _; simp [initMany]
  | cons s rest ih =>
    intro reg tag h
    have hs : strUpper s = tag := h s (by simp)
    rw [initMany, ih (initHandlers reg s) tag (fun a ha => h a (by simp [ha]))]
    simp [initHandlers, hs]
    omega

theorem emitTimes_no_rollover :
    ∀ (n maxBytes backupCount : Nat) (line : String) (st : FileState),
      st.active.length + n * (line.length + 1) < maxBytes →
      (emitTimes n maxBytes backupCount line st).active = st.active ++ repLine n line := by
  intro n
  induction n with
  | zero =>
    intro _ _ _ st _
    show st.active = st.active ++ repLine 0 _
    rw [repLine]
    exact (String.append_empty _).symm
  | succ n ih =>
    intro maxBytes backupCount line st h
    rw [Nat.succ_mul] at h
    have h1 : st.active.length + (line.length + 1) < maxBytes := by omega
    have h2 : (st.active ++ (line ++ "\n")).length + n * (line.length + 1) < maxBytes := by
      rw [String.length_append, String.length_append]
      have h3 : ("\n" : String).length = 1 := rfl
      rw [h3]
      omega
    rw [emitTimes, rfhEmit_no_rollover backupCount h1]
    rw [ih maxBytes backupCount line _ h2]
    show st.active ++ (line ++ "\n") ++ repLine n line = st.active ++ repLine (n + 1) line
    rw [String.append_assoc]
    rfl

/-! The claims. -/

/-- C3 counterexample: calling log with a dict message and compress=True sets
the entry's compressed field to true although the message field is the raw
dict, not a hex string — the condition at line 87 tests isinstance(message,
str), but line 89 stores the raw compress flag. -/
theorem C3_counterexample :
    (buildEntry id ctxPlain.now "COREFLOW" (.dict (.cons "a" (.str "b") .nil)) none
        true).compressed = true
    ∧ (buildEntry id ctxPlain.now "COREFLOW" (.dict (.cons "a" (.str "b") .nil)) none
        true).message.isStr = false :=
  ⟨rfl, rfl⟩

/-- C3 (amended): when compress=true and the message is a string, the stored
message is the lowercase hex of the compressed UTF-8 bytes, the hex decodes
back to those bytes, and decompression restores the original encoding; when
the message is a dict, the compressed field is still set to true while the
message field keeps the raw dict. -/
theorem C3_compressed_invariant (comp decomp : List Nat → List Nat) (now : Datetime)
    (system s : String) (md : Option JsonObj)
    (hround : decomp (comp (utf8Encode s)) = utf8Encode s)
    (hbytes : ∀ b ∈ comp (utf8Encode s), b < 256) :
    ((buildEntry comp now system (.str s) md true).message
        = .str (hexEncode (comp (utf8Encode s)))
      ∧ hexDecode (hexEncode (comp (utf8Encode s))) = some (comp (utf8Encode s))
      ∧ decomp (comp (utf8Encode s)) = utf8Encode s)
    ∧ ∀ d : JsonObj,
        (buildEntry comp now system (.dict d) md true).compressed = true
        ∧ (buildEntry comp now system (.dict d) md true).message = .obj d :=
  ⟨⟨rfl, hexDecode_hexEncode hbytes, hround⟩, fun _ => ⟨rfl, rfl⟩⟩

/-- C3 witness: the string "secret" with the identity in place of zlib. -/
theorem C3_compressed_invariant_witness :
    (buildEntry id dtC "COREFLOW" (.str "secret") none true).message
      = .str (hexEncode (utf8Encode "secret"))
    ∧ hexDecode (hexEncode (utf8Encode "secret")) = some (utf8Encode "secret") :=
  ⟨(C3_compressed_invariant id id dtC "COREFLOW" "secret" none rfl
      (fun b hb => utf8Encode_lt b hb)).1.1,
   (C3_compressed_invariant id id dtC "COREFLOW" "secret" none rfl
      (fun b hb => utf8Encode_lt b hb)).1.2.1⟩

/-- C4: for every string message logged with compress=true, the entry's
compressed field is true and hex-decoding then inflating the stored message
yields the UTF-8 encoding of the original text exactly (for any compressor
whose decompressor inverts it on this input and whose output is bytes). -/
theorem C4_roundtrip (comp decomp : List Nat → List Nat) (now : Datetime)
    (system s : String) (md : Option JsonObj)
    (hround : decomp (comp (utf8Encode s)) = utf8Encode s)
    (hbytes : ∀ b ∈ comp (utf8Encode s), b < 256) :
    (buildEntry comp now system (.str s) md true).compressed = true
    ∧ (buildEntry comp now system (.str s) md true).message
        = .str (hexEncode (comp (utf8Encode s)))
    ∧ (hexDecode (hexEncode (comp (utf8Encode s)))).map decomp
        = some (utf8Encode s) := by
  refine ⟨rfl, rfl, ?_⟩
  rw [hexDecode_hexEncode hbytes]
  simp [hround]

/-- C4 witness: the scenario log("secret", compress=True), with the identity
in place of zlib. -/
theorem C4_roundtrip_witness :
    (buildEntry id dtC "COREFLOW" (.str "secret") none true).compressed = true
    ∧ (buildEntry id dtC "COREFLOW" (.str "secret") none true).message
        = .str (hexEncode (utf8Encode "secret"))
    ∧ (hexDecode (hexEncode (utf8Encode "secret"))).map id = some (utf8Encode "secret") :=
  C4_roundtrip id id dtC "COREFLOW" "secret" none rfl (fun b hb => utf8Encode_lt b hb)

/-- C5 counterexample: at microsecond 123000 the entry timestamp rendered by
datetime.utcnow().isoformat() + "Z" carries six fractional digits, not the
three the claim requires. -/
theorem C5_counterexample :
    (buildEntry id dtC "COREFLOW" (.str "hi") none false).timestamp
      = "2026-01-02T03:04:05.123000Z"
    ∧ fracDigitCount ((buildEntry id dtC "COREFLOW" (.str "hi") none false).timestamp) = 6
    ∧ fracDigitCount ((buildEntry id dtC "COREFLOW" (.str "hi") none false).timestamp)
        ≠ 3 :=
  ⟨by decide, by decide, by decide⟩

/-- C5 (amended): the timestamp field is datetime.utcnow().isoformat() + "Z":
an ISO-8601 stamp with a trailing "Z" whose fractional part has zero digits
when the microsecond is zero and exactly six digits otherwise — never the
claimed fixed three-digit millisecond precision. -/
theorem C5_timestamp_format (comp : List Nat → List Nat) (now : Datetime)
    (system : String) (m : PyMessage) (md : Option JsonObj) (c : Bool)
    (hm : now.microsecond < 1000000) :
    (buildEntry comp now system m md c).timestamp = now.isoformat ++ "Z"
    ∧ fracDigitCount ((buildEntry comp now system m md c).timestamp)
        = (if now.microsecond = 0 then 0 else 6) :=
  ⟨rfl, fracDigitCount_iso hm⟩

/-- C5 witness: the instant 2026-01-02T03:04:05.123000. -/
theorem C5_timestamp_format_witness :
    (buildEntry id dtC "COREFLOW" (.str "hi") none false).timestamp
      = dtC.isoformat ++ "Z"
    ∧ fracDigitCount ((buildEntry id dtC "COREFLOW" (.str "hi") none false).timestamp)
        = (if dtC.microsecond = 0 then 0 else 6) :=
  C5_timestamp_format id dtC "COREFLOW" (.str "hi") none false (by decide)

/-- C6: when the active file's size has reached max_log_size (default
10 MiB, backup_count default 5), the next write rotates: the active content
moves to backup 1, existing backups cascade up by one, nothing is kept beyond
backup_count, and the freshly emptied active file receives the new line. -/
theorem C6_rotation (maxBytes backupCount : Nat) (line : String) (st : FileState)
    (hmax : 0 < maxBytes) (hbc : 0 < backupCount)
    (hsize : maxBytes ≤ st.active.length) :
    defaultMaxLogSize = 10 * 1024 * 1024
    ∧ defaultBackupCount = 5
    ∧ (rfhEmit maxBytes backupCount line st).active = line ++ "\n"
    ∧ (rfhEmit maxBytes backupCount line st).backups 1 = some st.active
    ∧ (∀ j c, 2 ≤ j → j ≤ backupCount → st.backups (j - 1) = some c →
        (rfhEmit maxBytes backupCount line st).backups j = some c)
    ∧ (∀ j, backupCount < j →
        (rfhEmit maxBytes backupCount line st).backups j = st.backups j) := by
  have hcond : 0 < maxBytes ∧ maxBytes ≤ st.active.length + (line.length + 1) :=
    ⟨hmax, by omega⟩
  have hrfh : rfhEmit maxBytes backupCount line st
      = { doRollover backupCount st with
          active := (doRollover backupCount st).active ++ (line ++ "\n") } := by
    simp only [rfhEmit]
    rw [if_pos hcond]
  refine ⟨rfl, rfl, ?_, ?_, ?_, ?_⟩
  · rw [hrfh]
    show (doRollover backupCount st).active ++ (line ++ "\n") = line ++ "\n"
    simp only [doRollover]
    rw [if_pos hbc]
    exact String.empty_append _
  · rw [hrfh]
    show (doRollover backupCount st).backups 1 = some st.active
    simp only [doRollover]
    rw [if_pos hbc]
    rfl
  · intro j c h2 hj hprev
    rw [hrfh]
    show (doRollover backupCount st).backups j = some c
    simp only [doRollover]
    rw [if_pos hbc]
    show (if j = 1 then some st.active
      else if 2 ≤ j ∧ j ≤ backupCount then
        match st.backups (j - 1) with
        | some c => some c
        | none => st.backups j
      else st.backups j) = some c
    rw [if_neg (by omega), if_pos (And.intro h2 hj), hprev]
  · intro j hj
    rw [hrfh]
    show (doRollover backupCount st).backups j = st.backups j
    simp only [doRollover]
    rw [if_pos hbc]
    show (if j = 1 then some st.active
      else if 2 ≤ j ∧ j ≤ backupCount then
        match st.backups (j - 1) with
        | some c => some c
        | none => st.backups j
      else st.backups j) = st.backups j
    rw [if_neg (by omega), if_neg (by omega)]

/-- C6 witness: a 10-character active file with maxBytes 10, backups one and
two present; the write archives the active file and cascades the backups. -/
theorem C6_rotation_witness :
    (rfhEmit 10 5 "x" stW).active = "x" ++ "\n"
    ∧ (rfhEmit 10 5 "x" stW).backups 1 = some "0123456789"
    ∧ (rfhEmit 10 5 "x" stW).backups 2 = some "one"
    ∧ (rfhEmit 10 5 "x" stW).backups 3 = some "two"
    ∧ (rfhEmit 10 5 "x" stW).backups 6 = none := by
  have h := C6_rotation 10 5 "x" stW (by decide) (by decide) (by decide)
  refine ⟨h.2.2.1, h.2.2.2.1, ?_, ?_, ?_⟩
  · exact h.2.2.2.2.1 2 "one" (by decide) (by decide) (by decide)
  · exact h.2.2.2.2.1 3 "two" (by decide) (by decide) (by decide)
  · rw [h.2.2.2.2.2 6 (by decide)]
    rfl

/-- C2 counterexample: with an OSError raised inside the file handler's emit,
the log call still returns normally (logging's Handler.handleError reports
and swallows), and nothing was appended — the error did not propagate. -/
theorem C2_counterexample :
    returnsOk (AuditLogger.log ctxFail (.str "hi") none false fs0) = true
    ∧ activeOf (AuditLogger.log ctxFail (.str "hi") none false fs0) = "" :=
  ⟨rfl, rfl⟩

/-- C2 (amended): an I/O failure while appending or rotating inside the file
handler's emit is caught by the logging framework's handleError hook, which
reports to sys.stderr and returns, so log returns normally with nothing
appended; failure does not propagate to the caller at call time (only
construction-time failures in __init__ would). -/
theorem C2_errors_swallowed (ctx : LogCtx) (m : PyMessage) (md : Option JsonObj)
    (c : Bool) (st : FileState) (hfail : ctx.fileEmitFails = true) :
    returnsOk (AuditLogger.log ctx m md c st) = true
    ∧ activeOf (AuditLogger.log ctx m md c st) = st.active := by
  constructor
  · rfl
  · simp [AuditLogger.log, activeOf, hfail]

/-- C2 witness: a failing append under the default configuration. -/
theorem C2_errors_swallowed_witness :
    returnsOk (AuditLogger.log ctxFail (.str "hi") none false fs0) = true
    ∧ activeOf (AuditLogger.log ctxFail (.str "hi") none false fs0) = fs0.active :=
  C2_errors_swallowed ctxFail (.str "hi") none false fs0 rfl

/-- C7 counterexample: with the journal attached, the delivered journal line
is the serialized JSON envelope of the whole entry (the record's message is
log_line, and the journal formatter is plain %(message)s), not the logged
message text. -/
theorem C7_counterexample :
    journalOf (AuditLogger.log ctxJ (.str "Systemstart") none false fs0)
      = some (logLine ctxPlain.env
          (buildEntry ctxPlain.comp ctxPlain.now "COREFLOW" (.str "Systemstart") none false))
    ∧ journalOf (AuditLogger.log ctxJ (.str "Systemstart") none false fs0)
        ≠ some "Systemstart" :=
  ⟨rfl, by decide⟩

/-- C7 (amended): when the journal handler is attached and healthy, every log
call forwards to the journal exactly the serialized JSON line of the full
entry — without the file handler's timestamp-and-name prefix, but including
timestamp, system, metadata and compressed. -/
theorem C7_journal_gets_json (ctx : LogCtx) (m : PyMessage) (md : Option JsonObj)
    (c : Bool) (st : FileState)
    (hatt : ctx.journalAttached = true) (hjf : ctx.journalEmitFails = false) :
    journalOf (AuditLogger.log ctx m md c st)
      = some (logLine ctx.env (buildEntry ctx.comp ctx.now ctx.system m md c)) := by
  simp [AuditLogger.log, journalOf, hatt, hjf]

/-- C7 witness: a healthy journal under the default configuration. -/
theorem C7_journal_gets_json_witness :
    journalOf (AuditLogger.log ctxJ (.str "hi") none false fs0)
      = some (logLine ctxJ.env
          (buildEntry ctxJ.comp ctxJ.now ctxJ.system (.str "hi") none false)) :=
  C7_journal_gets_json ctxJ (.str "hi") none false fs0 rfl rfl

/-- C8: the journal sink is never load-bearing: whatever the journal flags
(handler absent because the systemd import failed or mirroring disabled, or a
journal emit that raises), log returns normally and the file append still
happens; with the handler absent, mirroring is silently skipped. -/
theorem C8_journal_never_load_bearing (ctx : LogCtx) (m : PyMessage)
    (md : Option JsonObj) (c : Bool) (st : FileState)
    (hfail : ctx.fileEmitFails = false) :
    returnsOk (AuditLogger.log ctx m md c st) = true
    ∧ activeOf (AuditLogger.log ctx m md c st)
        = (rfhEmit ctx.maxBytes ctx.backupCount
            (fileFormat ctx.rt ("CF_AUDIT_" ++ ctx.system)
              (logLine ctx.env (buildEntry ctx.comp ctx.now ctx.system m md c))) st).active
    ∧ (ctx.journalAttached = false → journalOf (AuditLogger.log ctx m md c st) = none) := by
  refine ⟨rfl, ?_, ?_⟩
  · simp [AuditLogger.log, activeOf, hfail]
  · intro hj
    simp [AuditLogger.log, journalOf, hj]

/-- C8 witness: a journal emit that raises, under the default configuration. -/
theorem C8_journal_never_load_bearing_witness :
    returnsOk (AuditLogger.log ctxJfail (.str "hi") none false fs0) = true
    ∧ activeOf (AuditLogger.log ctxJfail (.str "hi") none false fs0)
        = (rfhEmit ctxJfail.maxBytes ctxJfail.backupCount
            (fileFormat ctxJfail.rt ("CF_AUDIT_" ++ ctxJfail.system)
              (logLine ctxJfail.env
                (buildEntry ctxJfail.comp ctxJfail.now ctxJfail.system (.str "hi") none
                  false))) fs0).active
    ∧ (ctxJfail.journalAttached = false →
        journalOf (AuditLogger.log ctxJfail (.str "hi") none false fs0) = none) :=
  C8_journal_never_load_bearing ctxJfail (.str "hi") none false fs0 rfl

set_option maxRecDepth 40000 in
/-- C9 counterexample: with CF_DEBUG set in the environment but equal to the
empty string, os.getenv('CF_DEBUG') is falsy, so the rendering is compact
(no newline anywhere in it), not pretty-printed — the flag being set is not
what the code tests. -/
theorem C9_counterexample :
    envSetEmpty "CF_DEBUG" = some ""
    ∧ '\n' ∉ (logLine envSetEmpty
        (buildEntry id ctxPlain.now "COREFLOW" (.str "hi") none false)).data :=
  ⟨rfl, by decide⟩

/-- C9 (amended): every serialized entry lists its keys in the fixed order
timestamp, system, message, metadata, compressed, and the rendering is
pretty-printed (indent 2, hence containing newlines) exactly when CF_DEBUG is
set to a non-empty string — Python truthiness of os.getenv — and compact
(single-line) otherwise. -/
theorem C9_key_order_and_indent (env : String → Option String) (e : LogEntry) :
    entryKeys e = ["timestamp", "system", "message", "metadata", "compressed"]
    ∧ ('\n' ∈ (logLine env e).data ↔ envTruthy env "CF_DEBUG" = true) := by
  refine ⟨rfl, ?_, ?_⟩
  · intro h
    by_contra hf
    have hfalse : envTruthy env "CF_DEBUG" = false := by
      cases henv : envTruthy env "CF_DEBUG"
      · rfl
      · exact absurd henv hf
    rw [logLine, if_neg (by rw [hfalse]; exact Bool.false_ne_true)] at h
    exact dumpsV_not_nl 0 _ h
  · intro h
    rw [logLine, if_pos h]
    exact dumpsV_indent_nl

/-- C10: constructing n loggers whose system upper-cases to one tag (the
module-level default instance being one of them) leaves n file handlers on
the single process-wide logger of that name, and one log call then appends
the formatted line n times to the shared active file. -/
theorem C10_duplicate_handlers (n : Nat) (_hn : 2 ≤ n) (systems : List String)
    (hlen : systems.length = n) (tag : String)
    (htag : ∀ s ∈ systems, strUpper s = tag)
    (reg : String → Nat) (maxBytes backupCount : Nat) (line : String) (st : FileState)
    (hsize : st.active.length + n * (line.length + 1) < maxBytes) :
    initMany reg systems ("CF_AUDIT_" ++ tag) = reg ("CF_AUDIT_" ++ tag) + n
    ∧ (emitTimes n maxBytes backupCount line st).active = st.active ++ repLine n line := by
  subst hlen
  exact ⟨initMany_count systems reg tag htag,
    emitTimes_no_rollover systems.length maxBytes backupCount line st hsize⟩

/-- C10 witness: the default instance ("coreflow") plus a second instance
("CoreFlow"), both upper-casing to COREFLOW; one info call appends twice. -/
theorem C10_duplicate_handlers_witness :
    initMany (fun _ => 0) ["coreflow", "CoreFlow"] ("CF_AUDIT_" ++ "COREFLOW")
      = (fun _ => (0 : Nat)) ("CF_AUDIT_" ++ "COREFLOW") + 2
    ∧ (emitTimes 2 100 5 "x" fs0).active = fs0.active ++ repLine 2 "x" :=
  C10_duplicate_handlers 2 (by decide) ["coreflow", "CoreFlow"] rfl "COREFLOW"
    (by decide) (fun _ => 0) 100 5 "x" fs0 (by decide)

set_option maxRecDepth 40000 in
/-- C1 counterexample: the line appended by a log call is not precisely the
single-line JSON object — the RotatingFileHandler's formatter (lines 60-63)
prepends the record time and the logger name before the serialized entry. -/
theorem C1_counterexample :
    activeOf (AuditLogger.log ctxPlain (.str "hi") none false fs0)
      ≠ logLine ctxPlain.env
          (buildEntry ctxPlain.comp ctxPlain.now ctxPlain.system (.str "hi") none false)
        ++ "\n" := by
  decide

/-- C1 (amended): with CF_DEBUG unset and no rotation pending, a log call on a
logger with a single file handler appends exactly one newline-terminated line
to the active file, and that line is the formatter's "time.mmmZ | name | "
prefix followed by the compact single-line JSON object of the entry (the line
itself contains no newline). -/
theorem C1_one_line_with_prefix (ctx : LogCtx) (m : PyMessage) (md : Option JsonObj)
    (c : Bool) (st : FileState)
    (henv : ctx.env "CF_DEBUG" = none)
    (hsys : '\n' ∉ ctx.system.data)
    (hfail : ctx.fileEmitFails = false)
    (hsize : st.active.length
        + ((fileFormat ctx.rt ("CF_AUDIT_" ++ ctx.system)
            (logLine ctx.env (buildEntry ctx.comp ctx.now ctx.system m md c))).length + 1)
        < ctx.maxBytes) :
    activeOf (AuditLogger.log ctx m md c st)
      = st.active
        ++ (fileFormat ctx.rt ("CF_AUDIT_" ++ ctx.system)
            (logLine ctx.env (buildEntry ctx.comp ctx.now ctx.system m md c)) ++ "\n")
    ∧ '\n' ∉ (fileFormat ctx.rt ("CF_AUDIT_" ++ ctx.system)
        (logLine ctx.env (buildEntry ctx.comp ctx.now ctx.system m md c))).data := by
  have ht : envTruthy ctx.env "CF_DEBUG" = false := by simp [envTruthy, henv]
  have hcompact : logLine ctx.env (buildEntry ctx.comp ctx.now ctx.system m md c)
      = dumpsV none 0 (buildEntry ctx.comp ctx.now ctx.system m md c).toJson := by
    rw [logLine, if_neg (by rw [ht]; exact Bool.false_ne_true)]
  constructor
  · simp only [AuditLogger.log, activeOf, hfail, Bool.false_eq_true, if_false]
    rw [rfhEmit_no_rollover ctx.backupCount hsize]
  · refine not_nl_append (not_nl_append (not_nl_append (not_nl_append (not_nl_append
      (not_nl_append dtBase_not_nl (by decide)) (fun hc => padNum_not_nl hc rfl))
      (by decide)) (not_nl_append (by decide) hsys)) (by decide)) ?_
    rw [hcompact]
    exact dumpsV_not_nl 0 _

set_option maxRecDepth 40000 in
/-- C1 witness: the default configuration, CF_DEBUG unset, an empty file. -/
theorem C1_one_line_with_prefix_witness :
    activeOf (AuditLogger.log ctxPlain (.str "hi") none false fs0)
      = fs0.active
        ++ (fileFormat ctxPlain.rt ("CF_AUDIT_" ++ ctxPlain.system)
            (logLine ctxPlain.env
              (buildEntry ctxPlain.comp ctxPlain.now ctxPlain.system (.str "hi") none
                false)) ++ "\n")
    ∧ '\n' ∉ (fileFormat ctxPlain.rt ("CF_AUDIT_" ++ ctxPlain.system)
        (logLine ctxPlain.env
          (buildEntry ctxPlain.comp ctxPlain.now ctxPlain.system (.str "hi") none
            false))).data :=
  C1_one_line_with_prefix ctxPlain (.str "hi") none false fs0 rfl (by decide) rfl (by decide)

end AuditLog
